import Mathlib

set_option maxRecDepth 100000

/-!
# Verification of the coreason-search retrieval pipeline

Shallow embedding, in Lean 4, of the core of the `coreason-search`
repository (package `coreason_search`): the fusion engine, the mock
reranker, the mock scout (context distiller), the metadata filter, the
PubMed query translator, the sparse retriever's systematic mode, and the
orchestrating engine (`SearchEngineAsync.execute` /
`execute_systematic`).

Modelling conventions:
* Python `float` scores are modelled as `ℚ` (all score arithmetic in the
  sources is exact small-denominator arithmetic: `1/(k+r+1)`,
  `len(content) * 0.01`).
* Python strings are Lean `String`s; `str.encode()` (UTF-8) is modelled
  by an explicit UTF-8 encoder; `hashlib.sha256(..).hexdigest()` is a
  full SHA-256 implementation below.
* Fallible calls are `Except Unit`; external collaborators (retrievers,
  the audit sink, the JIT content fetcher) are explicit parameters.
* Python `dict`s are insertion-ordered association lists.
-/

namespace CoreasonSearch

/-! ## SHA-256 (for the provenance hash of `engine.execute`)

`hashlib.sha256(prov_str.encode()).hexdigest()` — a byte-level SHA-256
over the UTF-8 encoding of the provenance string, rendered as lowercase
hex.  32-bit words are `Nat`s kept below `2^32` by explicit masking. -/

def mask32 : Nat := 4294967295

def add32 (a b : Nat) : Nat := (a + b) &&& mask32

def rotr32 (n x : Nat) : Nat := ((x >>> n) ||| (x <<< (32 - n))) &&& mask32

def bsig0 (x : Nat) : Nat := (rotr32 2 x) ^^^ (rotr32 13 x) ^^^ (rotr32 22 x)

def bsig1 (x : Nat) : Nat := (rotr32 6 x) ^^^ (rotr32 11 x) ^^^ (rotr32 25 x)

def ssig0 (x : Nat) : Nat := (rotr32 7 x) ^^^ (rotr32 18 x) ^^^ (x >>> 3)

def ssig1 (x : Nat) : Nat := (rotr32 17 x) ^^^ (rotr32 19 x) ^^^ (x >>> 10)

def chOf (x y z : Nat) : Nat := (x &&& y) ^^^ ((x ^^^ mask32) &&& z)

def majOf (x y z : Nat) : Nat := (x &&& y) ^^^ (x &&& z) ^^^ (y &&& z)

def hexVal (c : Char) : Nat :=
  if c.toNat ≤ 57 then c.toNat - 48 else c.toNat - 87

def hexWordsGo (fuel : Nat) (l : List Char) : List Nat :=
  match fuel, l with
  | 0, _ => []
  | _, [] => []
  | fuel + 1, l => (l.take 8).foldl (fun a c => a * 16 + hexVal c) 0 :: hexWordsGo fuel (l.drop 8)

/-- Read a run of lowercase hex digits as 32-bit words. -/
def hexWords (s : String) : List Nat := hexWordsGo s.length s.data

/-- The 64 SHA-256 round constants (FIPS 180-4). -/
def kConsts : List Nat := hexWords (String.join
  ["428a2f9871374491b5c0fbcfe9b5dba53956c25b59f111f1923f82a4ab1c5ed5",
   "d807aa9812835b01243185be550c7dc372be5d7480deb1fe9bdc06a7c19bf174",
   "e49b69c1efbe47860fc19dc6240ca1cc2de92c6f4a7484aa5cb0a9dc76f988da",
   "983e5152a831c66db00327c8bf597fc7c6e00bf3d5a7914706ca635114292967",
   "27b70a852e1b21384d2c6dfc53380d13650a7354766a0abb81c2c92e92722c85",
   "a2bfe8a1a81a664bc24b8b70c76c51a3d192e819d6990624f40e3585106aa070",
   "19a4c1161e376c082748774c34b0bcb5391c0cb34ed8aa4a5b9cca4f682e6ff3",
   "748f82ee78a5636f84c878148cc7020890befffaa4506cebbef9a3f7c67178f2"])

def h0Init : List Nat := hexWords "6a09e667bb67ae853c6ef372a54ff53a510e527f9b05688c1f83d9ab5be0cd19"

/-- SHA-256 padding: append `0x80`, zero bytes to 56 mod 64, then the
bit length as 8 big-endian bytes. -/
def padMessage (msg : List Nat) : List Nat :=
  let len := msg.length
  let bitLen := 8 * len
  let z := (120 - ((len + 1) % 64)) % 64
  let lenBytes := (List.range 8).map (fun i => (bitLen >>> (8 * (7 - i))) &&& 255)
  msg ++ [0x80] ++ List.replicate z 0 ++ lenBytes

/-- Pack bytes into 32-bit big-endian words. -/
def toWords : List Nat → List Nat
  | a :: b :: c :: d :: rest =>
      ((a <<< 24) ||| (b <<< 16) ||| (c <<< 8) ||| d) :: toWords rest
  | _ => []

def chunksGo (fuel : Nat) (l : List Nat) : List (List Nat) :=
  match fuel, l with
  | 0, _ => []
  | _, [] => []
  | fuel + 1, l => l.take 16 :: chunksGo fuel (l.drop 16)

/-- Split a word list into 16-word blocks. -/
def blocks16 (l : List Nat) : List (List Nat) := chunksGo l.length l

def scheduleStep (ws : List Nat) : List Nat :=
  let n := ws.length
  let w2 := ws.getD (n - 2) 0
  let w7 := ws.getD (n - 7) 0
  let w15 := ws.getD (n - 15) 0
  let w16 := ws.getD (n - 16) 0
  ws ++ [(ssig1 w2 + w7 + ssig0 w15 + w16) &&& mask32]

/-- Extend the 16 block words to the 64-word message schedule. -/
def schedule (block : List Nat) : List Nat :=
  (List.range 48).foldl (fun ws _ => scheduleStep ws) block

def compressStep (st : List Nat) (wk : Nat × Nat) : List Nat :=
  match st with
  | [a, b, c, d, e, f, g, h] =>
      let t1 := (h + bsig1 e + chOf e f g + wk.2 + wk.1) &&& mask32
      let t2 := (bsig0 a + majOf a b c) &&& mask32
      [(t1 + t2) &&& mask32, a, b, c, (d + t1) &&& mask32, e, f, g]
  | st => st

def compressBlock (hv : List Nat) (block : List Nat) : List Nat :=
  let st := ((schedule block).zip kConsts).foldl compressStep hv
  (hv.zip st).map (fun p => add32 p.1 p.2)

def hexDigit (n : Nat) : Char :=
  if n < 10 then Char.ofNat (48 + n) else Char.ofNat (87 + n)

def wordHex (w : Nat) : String :=
  String.mk ((List.range 8).map (fun i => hexDigit ((w >>> (4 * (7 - i))) &&& 15)))

/-- UTF-8 encoding of one character (Python `str.encode()`). -/
def utf8Char (c : Char) : List Nat :=
  let n := c.toNat
  if n < 128 then [n]
  else if n < 2048 then [192 ||| (n >>> 6), 128 ||| (n &&& 63)]
  else if n < 65536 then
    [224 ||| (n >>> 12), 128 ||| ((n >>> 6) &&& 63), 128 ||| (n &&& 63)]
  else
    [240 ||| (n >>> 18), 128 ||| ((n >>> 12) &&& 63),
     128 ||| ((n >>> 6) &&& 63), 128 ||| (n &&& 63)]

def strBytes (s : String) : List Nat := (s.data.map utf8Char).flatten

/-- `hashlib.sha256(s.encode()).hexdigest()`. -/
def sha256hex (s : String) : String :=
  let padded := padMessage (strBytes s)
  let final := (blocks16 (toWords padded)).foldl compressBlock h0Init
  String.join (final.map wordHex)

example : sha256hex "abc" =
    "ba7816bf8f01cfea414140de5dae2223b00361a396177a9cb410ff61f20015ad" := by
  decide

example : sha256hex "" =
    "e3b0c44298fc1c149afbf4c8996fb92427ae41e4649b934ca495991b7852b855" := by
  decide

/-! ## Python string helpers

Characters that the house style keeps out of string literals are built
explicitly. -/

def squote : Char := Char.ofNat 39

def dquote : Char := Char.ofNat 34

def bslash : Char := Char.ofNat 92

def nlChar : Char := Char.ofNat 10

def crChar : Char := Char.ofNat 13

def tabChar : Char := Char.ofNat 9

/-- Python ASCII whitespace (`\s` for the `re` module, `str.strip`,
`str.split`): space, tab, newline, carriage return, form feed, vertical
tab.  Non-ASCII whitespace is not modelled (no claim involves it). -/
def isPySpace (c : Char) : Bool :=
  c = ' ' || c = tabChar || c = nlChar || c = crChar ||
  c = Char.ofNat 12 || c = Char.ofNat 11

/-- Escaping of one character inside Python `repr` of a string, given
the chosen quote character.  Non-printable characters below 256 become
hex escapes; printable non-ASCII passes through (approximation of
`str.isprintable`, irrelevant for the plain-ASCII ids used below). -/
def pyEscapeChar (q : Char) (c : Char) : List Char :=
  if c = bslash then [bslash, bslash]
  else if c = q then [bslash, q]
  else if c = nlChar then [bslash, 'n']
  else if c = crChar then [bslash, 'r']
  else if c = tabChar then [bslash, 't']
  else if 32 ≤ c.toNat && c.toNat ≤ 126 then [c]
  else if c.toNat < 256 then
    [bslash, 'x', hexDigit (c.toNat >>> 4), hexDigit (c.toNat &&& 15)]
  else [c]

/-- Python `repr` of a `str`: single quotes, unless the string contains
a single quote and no double quote. -/
def pyStrRepr (s : String) : String :=
  let q := if s.data.contains squote && !(s.data.contains dquote)
           then dquote else squote
  String.mk ([q] ++ (s.data.map (pyEscapeChar q)).flatten ++ [q])

/-- Python `repr` of a `list[str]` (what an f-string interpolates for
`[h.doc_id for h in final_hits]`). -/
def pyListRepr (l : List String) : String :=
  "[" ++ String.intercalate ", " (l.map pyStrRepr) ++ "]"

/-- Python `str.lower` (ASCII; the sources only lower-case ASCII query
text and tags in the behaviours claimed). -/
def pyLower (s : String) : String := String.mk (s.data.map Char.toLower)

/-- Python `str.strip()`: remove leading and trailing whitespace. -/
def pyStrip (s : String) : String :=
  String.mk (((s.data.dropWhile isPySpace).reverse.dropWhile isPySpace).reverse)

/-- Python `str.split()` (no separator): split on whitespace runs,
discarding empty pieces. -/
def pySplitWsChars (fuel : Nat) (l : List Char) : List String :=
  match fuel with
  | 0 => []
  | fuel + 1 =>
    let l := l.dropWhile isPySpace
    if l.isEmpty then []
    else
      let word := l.takeWhile (fun c => !isPySpace c)
      String.mk word :: pySplitWsChars fuel (l.drop word.length)

def pySplitWs (s : String) : List String := pySplitWsChars (s.length + 1) s.data

/-- `needle in hay` for Python strings (substring containment). -/
def strContainsSub (hay needle : List Char) : Bool :=
  (List.range (hay.length + 1)).any (fun i => needle.isPrefixOf (hay.drop i))

/-- Python `str.startswith` (kernel-computable replacement for
`String.startsWith`). -/
def pyStartsWith (pre s : String) : Bool := pre.data.isPrefixOf s.data

/-- Python `str.split(sep)` for a one-character separator
(kernel-computable replacement for `String.splitOn`): `"" → [""]`,
`"." → ["", ""]`. -/
def charSplit (sep : Char) : List Char → List (List Char)
  | [] => [[]]
  | c :: cs =>
    let r := charSplit sep cs
    if c = sep then [] :: r
    else match r with
      | h :: t => (c :: h) :: t
      | [] => [[c]]

/-- Exact rational addition in `mkRat` form; Python float addition of
the pipeline's scores is modelled exactly (see `ratAdd_eq_add`). -/
def ratAdd (a b : ℚ) : ℚ :=
  mkRat (a.num * b.den + b.num * a.den) (a.den * b.den)

theorem ratAdd_eq_add (a b : ℚ) : ratAdd a b = a + b :=
  (Rat.add_def' a b).symm

/-! ## Data model (`schemas.py`)

Metadata values (`Dict[str, Any]` parsed from JSON) are modelled by
`MVal`: JSON null / Python `None`, numbers (a single exact numeric tower
`ℚ`, as Python compares `int` and `float` numerically), strings, lists
and insertion-ordered dicts. -/

inductive MVal where
  | null : MVal
  | num (q : ℚ) : MVal
  | str (s : String) : MVal
  | arr (l : List MVal) : MVal
  | obj (l : List (String × MVal)) : MVal

mutual

/-- Python `==` on metadata values (dict equality is modelled on the
ordered representation; all claims compare scalars). -/
def MVal.beq : MVal → MVal → Bool
  | .null, .null => true
  | .num a, .num b => a == b
  | .str a, .str b => a == b
  | .arr a, .arr b => MVal.beqList a b
  | .obj a, .obj b => MVal.beqObj a b
  | _, _ => false

def MVal.beqList : List MVal → List MVal → Bool
  | [], [] => true
  | a :: as, b :: bs => MVal.beq a b && MVal.beqList as bs
  | _, _ => false

def MVal.beqObj : List (String × MVal) → List (String × MVal) → Bool
  | [], [] => true
  | (ka, va) :: as, (kb, vb) :: bs =>
      ka == kb && MVal.beq va vb && MVal.beqObj as bs
  | _, _ => false

end

/-- Python `<`/`>` comparison on values: numbers and strings compare,
anything else raises `TypeError` (`none` here; `check_single_op` maps it
to `False`). -/
def MVal.pyCompare : MVal → MVal → Option Ordering
  | .num a, .num b => some (compare a b)
  | .str a, .str b => some (compare a b)
  | _, _ => none

/-- An opaque identity record (`UserContext`); the pipeline never
interprets it. -/
abbrev UserCtx := String

inductive RetrieverType where
  | lance_dense : RetrieverType
  | lance_fts : RetrieverType
  | graph_neighbor : RetrieverType
deriving DecidableEq

def RetrieverType.value : RetrieverType → String
  | .lance_dense => "lance_dense"
  | .lance_fts => "lance_fts"
  | .graph_neighbor => "graph_neighbor"

/-- `SearchRequest.query : Union[str, Dict[str, str]]`. -/
inductive PyQuery where
  | str (s : String) : PyQuery
  | map (l : List (String × String)) : PyQuery
deriving DecidableEq

structure Hit where
  doc_id : String
  content : Option String := none
  original_text : Option String := none
  distilled_text : String := ""
  score : ℚ
  source_strategy : String
  metadata : List (String × MVal) := []
  source_pointer : Option (List (String × String)) := none
  acls : List String := []

structure SearchRequest where
  query : PyQuery
  strategies : List RetrieverType
  fusion_enabled : Bool := true
  rerank_enabled : Bool := true
  distill_enabled : Bool := true
  top_k : Nat := 5
  filters : Option (List (String × MVal)) := none
  user_context : Option UserCtx := none

/-- `SearchResponse` (wall-clock `execution_time_ms` is not modelled;
no claim concerns it). -/
structure SearchResponse where
  hits : List Hit
  total_found : Nat
  provenance_hash : String

/-- `utils/common.py::extract_query_text`. -/
def extractQueryText : PyQuery → String
  | .str s => s
  | .map l =>
    match l.lookup "text" with
    | some v => v
    | none => String.intercalate " " (l.map (·.2))

/-- Python `repr` of a `dict[str, str]` (what an f-string interpolates
for a mapping query). -/
def pyDictRepr (l : List (String × String)) : String :=
  "\x7b" ++
    String.intercalate ", "
      (l.map (fun p => pyStrRepr p.1 ++ ": " ++ pyStrRepr p.2)) ++
  "\x7d"

/-- `f"{request.query}"`: the string itself, or the dict repr. -/
def pyQueryFStr : PyQuery → String
  | .str s => s
  | .map l => pyDictRepr l

/-! ## Metadata filter (`utils/filters.py`) -/

/-- `_get_value_by_path`: dotted-path navigation; a missing key or a
non-dict on the way gives Python `None` (`MVal.null`). -/
def getValueByPath (data : MVal) (path : String) : MVal :=
  ((charSplit '.' path.data).map String.mk).foldl
    (fun curr k =>
      match curr with
      | .obj l => match l.lookup k with | some v => v | none => .null
      | _ => .null)
    data

/-- `check_single_op`: one operator; a `TypeError` comparison is
`False`; an unknown operator is `True`. -/
def checkSingleOp (op : String) (value : MVal) (target : MVal) : Bool :=
  if op = "$eq" then MVal.beq value target
  else if op = "$ne" then !(MVal.beq value target)
  else if op = "$gt" then
    !(MVal.beq value .null) &&
      (match MVal.pyCompare value target with
       | some .gt => true | _ => false)
  else if op = "$gte" then
    !(MVal.beq value .null) &&
      (match MVal.pyCompare value target with
       | some .gt => true | some .eq => true | _ => false)
  else if op = "$lt" then
    !(MVal.beq value .null) &&
      (match MVal.pyCompare value target with
       | some .lt => true | _ => false)
  else if op = "$lte" then
    !(MVal.beq value .null) &&
      (match MVal.pyCompare value target with
       | some .lt => true | some .eq => true | _ => false)
  else if op = "$in" then
    match target with
    | .arr ts => ts.any (fun t => MVal.beq value t)
    | _ => MVal.beq value target
  else if op = "$nin" then
    match target with
    | .arr ts => !(ts.any (fun t => MVal.beq value t))
    | _ => !(MVal.beq value target)
  else true

/-- `_check_condition_operators`: all operator entries must hold. -/
def checkConditionOperators (value : MVal) (condition : List (String × MVal)) : Bool :=
  condition.all (fun p => checkSingleOp p.1 value p.2)

/-- `matches_filters`, with a fuel parameter for the recursion into
`$or`/`$and`/`$not` sub-filters (any fuel at least the nesting depth
gives the Python semantics; concrete evaluations below always supply
enough). -/
def matchesFiltersGo (fuel : Nat) (metadata : List (String × MVal))
    (filters : List (String × MVal)) : Bool :=
  match fuel with
  | 0 => false
  | fuel + 1 =>
    let recur : MVal → Bool := fun cond =>
      match cond with
      | .obj f => matchesFiltersGo fuel metadata f
      | _ => false
    let orOk :=
      match filters.lookup "$or" with
      | none => true
      | some (.arr conds) => conds.any recur
      | some _ => false
    let andOk :=
      match filters.lookup "$and" with
      | none => true
      | some (.arr conds) => conds.all recur
      | some _ => false
    let notOk :=
      match filters.lookup "$not" with
      | none => true
      | some cond => !(recur cond)
    let fieldsOk :=
      filters.all (fun p =>
        if pyStartsWith "$" p.1 then true
        else
          let value := getValueByPath (.obj metadata) p.1
          match p.2 with
          | .obj condition => checkConditionOperators value condition
          | cond =>
            match value, cond with
            | .arr vs, .arr _ => MVal.beq (.arr vs) cond
            | .arr vs, c => vs.any (fun v => MVal.beq v c)
            | v, c => MVal.beq v c)
    orOk && andOk && notOk && fieldsOk

mutual

/-- Nesting depth bound used as fuel. -/
def mvalDepth : MVal → Nat
  | .null => 1
  | .num _ => 1
  | .str _ => 1
  | .arr l => 1 + mvalDepthList l
  | .obj l => 1 + mvalDepthObj l

def mvalDepthList : List MVal → Nat
  | [] => 0
  | v :: vs => Nat.max (mvalDepth v) (mvalDepthList vs)

def mvalDepthObj : List (String × MVal) → Nat
  | [] => 0
  | p :: vs => Nat.max (mvalDepth p.2) (mvalDepthObj vs)

end

def matchesFilters (metadata filters : List (String × MVal)) : Bool :=
  matchesFiltersGo (mvalDepth (.obj filters) + 1) metadata filters

/-! ## Stable descending sort (Python `list.sort(key=score, reverse=True)`)

Python's sort is stable; with `reverse=True` elements are ordered by
score descending and equal scores keep their original order.  Insertion
sort processing elements left to right, inserting each after all
elements of score greater than or equal to it, has exactly this
behaviour. -/

def insertDesc (x : Hit) : List Hit → List Hit
  | [] => [x]
  | y :: ys => if x.score > y.score then x :: y :: ys else y :: insertDesc x ys

def sortDescStable (l : List Hit) : List Hit :=
  l.foldl (fun acc x => insertDesc x acc) []

/-! ## Reranker (`reranker.py::MockReranker.rerank`)

The mock scores each hit by `len(hit.content) * 0.01` — on a hit whose
`content` is `None`, `len(None)` raises `TypeError`, modelled as
`Except.error`.  Scores are modelled exactly as `len/100 : ℚ`; float
multiplication by the positive constant `0.01` is monotone in the
length, so the sorted order (and ties) coincide. -/

def mockRerank (_query : PyQuery) (hits : List Hit) (top_k : Nat) :
    Except Unit (List Hit) :=
  if hits.isEmpty then .ok []
  else do
    let scored ← hits.mapM (fun h =>
      match h.content with
      | none => Except.error ()
      | some c => Except.ok { h with score := mkRat c.length 100 })
    return (sortDescStable scored).take top_k

/-! ## Scout (`scout.py::MockScout`) -/

structure ScoutConfig where
  threshold : ℚ := mkRat 2 5

/-- The optional JIT content fetcher
(`Callable[[Dict[str, str], Optional[UserContext]], str]`); a Python
implementation may also return `None`. -/
abbrev Fetcher := List (String × String) → Option UserCtx → Option String

structure MockScout where
  config : ScoutConfig := {}
  content_fetcher : Option Fetcher := none

/-- Python truthiness of `Optional[str]` (`not original_text`). -/
def falsyOptStr : Option String → Bool
  | none => true
  | some s => s.isEmpty

def isSentTerm : Option Char → Bool
  | some c => c = '.' || c = '!' || c = '?'
  | none => false

/-- `SENTENCE_SPLIT_REGEX = (?<=[.!?])\s+`: split at each maximal
whitespace run whose preceding character is a sentence terminator. -/
def sentSplitGo (fuel : Nat) (prev : Option Char) (acc : List Char)
    (rest : List Char) : List (List Char) :=
  match fuel with
  | 0 => [acc.reverse]
  | fuel + 1 =>
    match rest with
    | [] => [acc.reverse]
    | c :: cs =>
      if isPySpace c && isSentTerm prev then
        acc.reverse :: sentSplitGo fuel (some ' ') [] (cs.dropWhile isPySpace)
      else
        sentSplitGo fuel (some c) (c :: acc) cs

/-- `MockScout._segment`: regex split, then strip each piece and drop
empties. -/
def segmentText (text : String) : List String :=
  ((sentSplitGo (text.length + 1) none [] text.data).map
      (fun l => pyStrip (String.mk l))).filter (fun s => !s.isEmpty)

/-- `MockScout._score_unit`: 1.0 if any query term occurs as a
substring of the lower-cased unit, else 0.0. -/
def scoreUnit (unit : String) (queryTerms : List String) : ℚ :=
  let unitClean := pyLower unit
  if queryTerms.isEmpty then 0
  else if queryTerms.any (fun t => strContainsSub unitClean.data t.data)
  then 1 else 0

/-- One hit of `MockScout.distill`: `model_copy`, resolve the text
source (JIT-fetching via `source_pointer` when `original_text` is falsy
and a fetcher is configured), segment, score, filter, reconstruct.  The
fetched text is only used locally; no field other than
`distilled_text` is assigned on the copy. -/
def distillOne (sc : MockScout) (queryTerms : List String)
    (ctx : Option UserCtx) (hit : Hit) : Hit :=
  let fetched : Option String :=
    if falsyOptStr hit.original_text then
      match sc.content_fetcher, hit.source_pointer with
      | some f, some ptr => f ptr ctx
      | _, _ => hit.original_text
    else hit.original_text
  if falsyOptStr fetched then
    { hit with distilled_text := "" }
  else
    let text := fetched.getD ""
    let segs := segmentText text
    let relevant := segs.filter (fun s => scoreUnit s queryTerms > sc.config.threshold)
    { hit with
        distilled_text :=
          if relevant.isEmpty then "" else String.intercalate " " relevant }

/-- `MockScout.distill` (`user_context` defaults to `None` in the
source; the engine's call site passes no context at all). -/
def mockScoutDistill (sc : MockScout) (query : PyQuery) (hits : List Hit)
    (ctx : Option UserCtx := none) : List Hit :=
  let queryText := extractQueryText query
  let queryTerms := pySplitWs (pyLower queryText)
  hits.map (distillOne sc queryTerms ctx)

/-! ## Fusion engine (`fusion.py::FusionEngine.fuse`)

The source keeps two insertion-ordered dicts, `doc_scores : id → score`
and `doc_map : id → first Hit`; they always have the same keys, so they
are modelled as one insertion-ordered association list
`id → (accumulated score, first Hit)`. -/

/-- One `(rank, hit)` step of the accumulation: add `1/(k+rank+1)` for
an id already present (keeping its dict position and first hit), append
a fresh entry otherwise. -/
def rrfUpdate (acc : List (String × ℚ × Hit)) (d : String) (s : ℚ) (h : Hit) :
    List (String × ℚ × Hit) :=
  match acc with
  | [] => [(d, s, h)]
  | e :: rest =>
    if e.1 = d then (e.1, ratAdd e.2.1 s, e.2.2) :: rest
    else e :: rrfUpdate rest d s h

def rrfContrib (k : Nat) (rank : Nat) : ℚ := mkRat 1 (k + rank + 1)

def fuseAccum (k : Nat) (results : List (List Hit)) : List (String × ℚ × Hit) :=
  results.foldl
    (fun acc hl =>
      hl.enum.foldl
        (fun acc p => rrfUpdate acc p.2.doc_id (rrfContrib k p.1) p.2) acc)
    []

/-- `FusionEngine.fuse` with parameter `k` (the engine instantiates
`FusionEngine()` with the default `k = 60`). -/
def fusionFuse (k : Nat) (results : List (List Hit)) : List Hit :=
  if results.isEmpty then []
  else
    sortDescStable
      ((fuseAccum k results).map (fun t => { t.2.2 with score := t.2.1 }))

/-! Specification-side RRF, written from the claim: per-id score sum
over all inputs of `1/(k+r+1)` at 0-based rank `r`; one retained hit
per id, the first occurrence across inputs in input order; sorted by
score descending with ties in first-occurrence order. -/

/-- First occurrence per `doc_id`, in order of appearance. -/
def firstOccHits (l : List Hit) : List Hit :=
  l.foldl
    (fun acc h => if acc.any (fun g => g.doc_id = h.doc_id) then acc else acc ++ [h])
    []

def rrfSpecScore (k : Nat) (results : List (List Hit)) (d : String) : ℚ :=
  (results.map (fun l =>
      ((l.enum.filter (fun p => p.2.doc_id = d)).map (fun p => rrfContrib k p.1)).sum)).sum

def fuseSpec (k : Nat) (results : List (List Hit)) : List Hit :=
  if results.isEmpty then []
  else
    sortDescStable
      ((firstOccHits results.flatten).map
        (fun h => { h with score := rrfSpecScore k results h.doc_id }))

/-! ## Sparse retriever, systematic mode (`retrievers/sparse.py`)

The FTS backend is modelled as the full ordered list of matching rows;
a `search(...).limit(n).offset(o)` request returns rows `o, …, o+n-1`
of that list.  `_map_single_result` is modelled with the metadata
already parsed (the JSON decoding with `{}` fallback is out of scope of
the claims). -/

structure SparseRow where
  doc_id : String
  content : Option String := none
  score : ℚ := 0
  metadata : List (String × MVal) := []

/-- `SparseRetriever._map_single_result`. -/
def mapSingleResult (r : SparseRow) : Hit :=
  { doc_id := r.doc_id, content := r.content, original_text := r.content,
    distilled_text := "", score := r.score,
    source_strategy := RetrieverType.lance_fts.value, metadata := r.metadata }

def filterRow (filters : Option (List (String × MVal))) (r : SparseRow) : Option Hit :=
  let hit := mapSingleResult r
  match filters with
  | some f => if matchesFilters hit.metadata f then some hit else none
  | none => some hit

/-- The `(limit, offset)` requests a run issues against the backend,
plus the hits it yields. -/
structure BackendTrace where
  requests : List (Nat × Nat)
  yielded : List Hit

/-- `SparseRetriever.retrieve_systematic` as implemented: one single
`search(query).limit(1000000)` request materialising the whole result
set (`to_arrow()`), then yield every row that passes the filter.  No
`(limit, offset)` pagination is performed. -/
def retrieveSystematicCode (table : List SparseRow)
    (filters : Option (List (String × MVal))) : BackendTrace :=
  let rows := table.take 1000000
  { requests := [(1000000, 0)], yielded := rows.filterMap (filterRow filters) }

def retrieveSystematicSpecGo (fuel batchSize offset : Nat) (table : List SparseRow)
    (filters : Option (List (String × MVal))) : List (Nat × Nat) × List Hit :=
  match fuel with
  | 0 => ([], [])
  | fuel + 1 =>
    let page := (table.drop offset).take batchSize
    let hits := page.filterMap (filterRow filters)
    if page.length < batchSize then ([(batchSize, offset)], hits)
    else
      let rest := retrieveSystematicSpecGo fuel batchSize (offset + batchSize) table filters
      ((batchSize, offset) :: rest.1, hits ++ rest.2)

/-- Modelled from the spec: the paginated systematic retrieval that
spec §4.7 describes and that the repository's tests mock (an attribute
`systematic_batch_size`, default 1000; `(limit, offset)` requests
re-issued per page; termination when a page returns fewer rows than the
batch size).  `sparse.py` does not implement this. -/
def retrieveSystematicSpec (table : List SparseRow)
    (filters : Option (List (String × MVal))) (batchSize : Nat := 1000) :
    BackendTrace :=
  let r := retrieveSystematicSpecGo (table.length + 1) batchSize 0 table filters
  { requests := r.1, yielded := r.2 }

/-! ## Engine, bounded mode (`engine.py::SearchEngineAsync.execute`)

The per-strategy retrievals are collaborators: `retrieve` gives each
strategy's outcome (`Except.error` = the strategy raised; it is then
logged and omitted).  Strategies complete in any order but are
collected in request order, so the dispatch is deterministic here.  The
engine's Scout is `get_scout(config)`, which configures no content
fetcher; `engine.py` calls `scout.distill(query, hits)` with no
`user_context` argument, so the distill call runs with the source's
default `user_context = None` — the outcome records the context value
passed to that call. -/

structure ExecOutcome where
  result : Except Unit SearchResponse
  /-- `some c` when Scout ran, recording the `user_context` argument
  `c` of the `distill` call. -/
  distillCtx : Option (Option UserCtx)

/-- Step 1 — retrieval: failures logged and skipped, empty lists
skipped; collected in request order. -/
def engineAllHits (req : SearchRequest)
    (retrieve : RetrieverType → Except Unit (List Hit)) : List (List Hit) :=
  req.strategies.foldl
    (fun acc s =>
      match retrieve s with
      | .ok hits => if hits.isEmpty then acc else acc ++ [hits]
      | .error _ => acc)
    []

/-- Step 2 — fusion, or flatten + dedup by `doc_id` keeping the first
occurrence. -/
def engineFusedHits (req : SearchRequest)
    (retrieve : RetrieverType → Except Unit (List Hit)) : List Hit :=
  let all_hits := engineAllHits req retrieve
  if req.fusion_enabled && !all_hits.isEmpty then fusionFuse 60 all_hits
  else firstOccHits all_hits.flatten

def engineExecute (req : SearchRequest)
    (retrieve : RetrieverType → Except Unit (List Hit))
    (scoutCfg : ScoutConfig := {}) : ExecOutcome :=
  let fused_hits := engineFusedHits req retrieve
  -- 3. Re-ranking: window of 50, else first top_k of the fused list.
  let rerank_candidates := fused_hits.take 50
  let reranked : Except Unit (List Hit) :=
    if req.rerank_enabled && !rerank_candidates.isEmpty then
      mockRerank req.query rerank_candidates req.top_k
    else .ok (fused_hits.take req.top_k)
  match reranked with
  | .error e => { result := .error e, distillCtx := none }
  | .ok reranked_hits =>
    -- 4. Scout: `self.scout.distill(request.query, reranked_hits)`.
    let doDistill := req.distill_enabled && !reranked_hits.isEmpty
    let final_hits :=
      if doDistill then
        mockScoutDistill { config := scoutCfg } req.query reranked_hits none
      else reranked_hits
    -- 5. Provenance: f-string over the query and the doc_id list repr.
    let prov_str := pyQueryFStr req.query ++ pyListRepr (final_hits.map (·.doc_id))
    { result := .ok
        { hits := final_hits, total_found := final_hits.length,
          provenance_hash := sha256hex prov_str },
      distillCtx := if doDistill then some none else none }

/-! ## Engine, systematic mode (`engine.py::SearchEngineAsync.execute_systematic`)

The generator is embedded by its observable trace as a function of the
collaborators and of the consumer's behaviour.  The sparse systematic
generator delivers `sparseItems` and then either stops
(`StopIteration`) or raises (`sparseRaises = true` — the engine logs
the error and breaks, engine.py:231-233).  The dense fallback retrieval
either returns hits or raises (uncaught there, so it propagates).  The
consumer either iterates to exhaustion (`budget = none`) or closes the
generator after receiving `k` items (`budget = some k`; `some 0` means
the generator body never starts).  The audit sink raising on `START`
propagates before anything is yielded; the `COMPLETE` emission sits in
a `finally`. -/

inductive AuditEvent where
  | start (query : PyQuery) (strategies : List String) (snapshot : Int) : AuditEvent
  | complete (total_found : Nat) : AuditEvent
deriving DecidableEq

structure SysInput where
  request : SearchRequest
  sparseItems : List Hit
  sparseRaises : Bool
  denseHits : Except Unit (List Hit)
  tableVersion : Except Unit Int
  auditStartRaises : Bool

/-- Per-strategy yielded segments, and whether the generator body
raises (only a dense-fallback failure propagates; sparse stream errors
are caught, logged and swallowed by the `while` loop; `graph_neighbor`
matches no branch and yields nothing). -/
def stratSegs (i : SysInput) : List (List Hit) × Bool :=
  i.request.strategies.foldl
    (fun acc s =>
      if acc.2 then acc
      else
        match s with
        | .lance_fts => (acc.1 ++ [i.sparseItems], false)
        | .lance_dense =>
          match i.denseHits with
          | .ok l => (acc.1 ++ [l], false)
          | .error _ => (acc.1, true)
        | .graph_neighbor => acc)
    ([], false)

def fullStream (i : SysInput) : List Hit := (stratSegs i).1.flatten

def streamRaises (i : SysInput) : Bool := (stratSegs i).2

structure SysOutcome where
  delivered : List Hit
  events : List AuditEvent
  raised : Bool

def engineExecuteSystematic (i : SysInput) (budget : Option Nat) : SysOutcome :=
  match budget with
  | some 0 => { delivered := [], events := [], raised := false }
  | _ =>
    if i.auditStartRaises then { delivered := [], events := [], raised := true }
    else
      let snapshot : Int := match i.tableVersion with | .ok v => v | .error _ => -1
      let startEv := AuditEvent.start i.request.query
        (i.request.strategies.map (·.value)) snapshot
      let f := fullStream i
      match budget with
      | some k =>
        if k ≤ f.length then
          -- the consumer closes at the k-th yield: the post-yield
          -- `count += 1` for that item never runs
          { delivered := f.take k, events := [startEv, .complete (k - 1)],
            raised := false }
        else
          { delivered := f, events := [startEv, .complete f.length],
            raised := streamRaises i }
      | none =>
          { delivered := f, events := [startEv, .complete f.length],
            raised := streamRaises i }

/-! ## PubMed query translation (`utils/query_parser.py`)

`parse_pubmed_query` is a single `re.sub` with the pattern

    (?:(["'])(.*?)\1|([^\s()\[\]]+))\s*\[(.*?)\]

The scan-and-replace is embedded directly: at each position, first the
quoted alternative (lazy content, backtracking over candidate closing
quotes, `.` not crossing a newline), then the unquoted alternative (a
maximal run of characters excluding whitespace, parentheses and square
brackets — shrinking the greedy run can never help, since the character
after a shorter run is still in the class and cannot be `[`), each
followed by `\s*\[` and a lazy tag ending at the first `]`. -/

def fieldMapping : List (String × String) :=
  [("ti", "title"), ("title", "title"), ("ab", "abstract"),
   ("abstract", "abstract"), ("tiab", "title_abstract"),
   ("mesh", "mesh_terms"), ("mh", "mesh_terms")]

/-- `_map_tags_to_fields`. -/
def mapTagsToFields (tags : List String) : List String :=
  tags.flatMap (fun t =>
    let field := (fieldMapping.lookup t).getD t
    if field = "title_abstract" then ["title", "abstract"] else [field])

/-- `replace_match`: build the replacement for one matched term/tag. -/
def pubmedReplace (term : List Char) (tagRaw : List Char) : List Char :=
  let tags := ((charSplit '/' tagRaw).map String.mk).map (fun t => pyLower (pyStrip t))
  let mappedFields := mapTagsToFields tags
  match mappedFields with
  | [] => term
  | [f] => f.data ++ [':'] ++ term
  | fs =>
    ('(' :: (String.intercalate " OR "
        (fs.map (fun f => f ++ ":" ++ String.mk term))).data) ++ [')']

/-- `\s*\[(.*?)\]` after the term: whitespace, `[`, the tag up to the
first `]` (with no newline before it).  Returns consumed length and the
raw tag. -/
def tagTail (rest : List Char) : Option (Nat × List Char) :=
  let wsN := (rest.takeWhile isPySpace).length
  match rest.drop wsN with
  | '[' :: r3 =>
    let tag := r3.takeWhile (fun c => c ≠ ']' && c ≠ nlChar)
    match r3.drop tag.length with
    | ']' :: _ => some (wsN + 1 + tag.length + 1, tag)
    | _ => none
  | _ => none

/-- The quoted alternative at the current position: `(["'])(.*?)\1`
then the tag tail; lazy content extends to each further closing quote
(never across a newline) until the tail matches. -/
def tryQuoted (l : List Char) : Option (Nat × List Char) :=
  match l with
  | q :: rest =>
    if q = dquote || q = squote then
      ((List.range rest.length).filter
          (fun j => rest.getD j ' ' = q && !((rest.take j).contains nlChar))).findSome?
        (fun j =>
          match tagTail (rest.drop (j + 1)) with
          | some (tc, tag) =>
            some (1 + j + 1 + tc,
              pubmedReplace ([dquote] ++ rest.take j ++ [dquote]) tag)
          | none => none)
    else none
  | [] => none

/-- The unquoted alternative: a maximal nonempty run of characters
outside `\s()[]`, then the tag tail. -/
def tryUnquoted (l : List Char) : Option (Nat × List Char) :=
  let run := l.takeWhile (fun c =>
    !isPySpace c && c ≠ '(' && c ≠ ')' && c ≠ '[' && c ≠ ']')
  if run.isEmpty then none
  else
    match tagTail (l.drop run.length) with
    | some (tc, tag) => some (run.length + tc, pubmedReplace run tag)
    | none => none

def tryMatchAt (l : List Char) : Option (Nat × List Char) :=
  match tryQuoted l with
  | some r => some r
  | none => tryUnquoted l

/-- `pattern.sub(replace_match, query)`: leftmost non-overlapping
matches, everything else copied through. -/
def pubmedScan (fuel : Nat) (l : List Char) : List Char :=
  match fuel with
  | 0 => l
  | fuel + 1 =>
    match l with
    | [] => []
    | c :: cs =>
      match tryMatchAt (c :: cs) with
      | some (consumed, replacement) =>
        replacement ++ pubmedScan fuel ((c :: cs).drop consumed)
      | none => c :: pubmedScan fuel cs

/-- `parse_pubmed_query`. -/
def parsePubmedQuery (query : String) : String :=
  if query.isEmpty then ""
  else String.mk (pubmedScan (query.length + 1) query.data)

/-- `SparseRetriever._prepare_query`: a mapping becomes
`field:value AND …`; a string query is returned unchanged
(`str(query)`) — in particular no PubMed translation is applied. -/
def prepareQuery : PyQuery → String
  | .map l => String.intercalate " AND " (l.map (fun p => p.1 ++ ":" ++ p.2))
  | .str s => s

/-! ## Projections and concrete inputs used by the theorems -/

/-- Number of hits of a successful response. -/
def respHitsCount (o : ExecOutcome) : Option Nat :=
  match o.result with
  | .ok r => some r.hits.length
  | .error _ => none

/-- Provenance hash of a successful response. -/
def respProv (o : ExecOutcome) : Option String :=
  match o.result with
  | .ok r => some r.provenance_hash
  | .error _ => none

/-- Ordered `doc_id`s of a successful response. -/
def respIds (o : ExecOutcome) : Option (List String) :=
  match o.result with
  | .ok r => some (r.hits.map (·.doc_id))
  | .error _ => none

/-- `total_found` payloads of the `SYSTEMATIC_SEARCH_COMPLETE` events
of a systematic run. -/
def completeTotals (o : SysOutcome) : List Nat :=
  o.events.filterMap (fun e => match e with | .complete n => some n | _ => none)

/-- Whether a `SYSTEMATIC_SEARCH_START` event was successfully emitted. -/
def startEmitted (o : SysOutcome) : Bool :=
  o.events.any (fun e => match e with | .start .. => true | _ => false)

/-- Whether the consumer terminates the stream between a yield and the
post-yield bookkeeping: it closes after `k` received items and the
stream had at least `k` (so the `count += 1` of the `k`-th item never
runs). -/
def earlyClose (i : SysInput) (budget : Option Nat) : Bool :=
  match budget with
  | some k => decide (1 ≤ k) && decide (k ≤ (fullStream i).length)
  | none => false

/-- A plain identifier: printable ASCII without single quote or
backslash, so its Python `repr` is exactly the single-quoted string. -/
def plainId (s : String) : Bool :=
  s.data.all (fun c =>
    32 ≤ c.toNat && c.toNat ≤ 126 && c ≠ squote && c ≠ dquote && c ≠ bslash)

def sq (s : String) : String := String.mk ([squote] ++ s.data ++ [squote])

/-- A sparse-style hit with everything populated. -/
def mkFtsHit (d : String) : Hit :=
  { doc_id := d, content := some "", original_text := some "",
    distilled_text := "", score := 1,
    source_strategy := RetrieverType.lance_fts.value }

/-- C10 input: a dense hit whose row had null content
(`Hit.content : Optional[str]` permits it, `dense.py` maps
`item["content"]` straight through). -/
def hitNullContent : Hit :=
  { doc_id := "d1", content := none, original_text := none,
    distilled_text := "", score := 1,
    source_strategy := RetrieverType.lance_dense.value }

def reqC10 : SearchRequest :=
  { query := .str "q", strategies := [.lance_dense], rerank_enabled := true,
    top_k := 5 }

def retrC10 : RetrieverType → Except Unit (List Hit) :=
  fun _ => .ok [hitNullContent]

/-- C6 input: a request carrying a user context, with Scout enabled
(mirrors `test_identity_propagation.py::test_identity_passed_to_scout`). -/
def reqC6 : SearchRequest :=
  { query := .str "test", strategies := [.lance_dense],
    rerank_enabled := false, distill_enabled := true, top_k := 5,
    user_context := some "prop_user" }

def retrC6 : RetrieverType → Except Unit (List Hit) :=
  fun _ => .ok
    [{ doc_id := "1", content := some "c", original_text := some "o",
       distilled_text := "", score := 1,
       source_strategy := RetrieverType.lance_dense.value }]

/-- C2 counterexample input: enters distill with `original_text = None`
but a non-null `content`, and a pointer the configured fetcher
resolves. -/
def hitC2 : Hit :=
  { doc_id := "d", content := some "abc", original_text := none,
    distilled_text := "", score := 1, source_strategy := "s",
    source_pointer := some [("k", "v")] }

def scoutC2 : MockScout :=
  { content_fetcher := some (fun _ _ => some "Fetched text.") }

/-- C1 counterexample input: a single hit with id `a`, all optional
stages off. -/
def reqC1 : SearchRequest :=
  { query := .str "q", strategies := [.lance_fts], fusion_enabled := false,
    rerank_enabled := false, distill_enabled := false, top_k := 5 }

def retrC1 : RetrieverType → Except Unit (List Hit) :=
  fun s => match s with
    | .lance_fts => .ok [mkFtsHit "a"]
    | _ => .ok []

/-- C8 failing input: spec scenario S6 / the repository's
`test_complex_systematic.py::test_complex_filter_streaming` — nine rows
with `val` metadata 5, 15, 5, 5, 5, 5, 20, 30, 5, batch size 3, filter
`val > 10` (written as the parsed form of the JSON metadata). -/
def rowC8 (d : String) (v : ℚ) : SparseRow :=
  { doc_id := d, content := some "c", score := 1,
    metadata := [("val", .num v)] }

def tableC8 : List SparseRow :=
  [rowC8 "1" 5, rowC8 "2" 15, rowC8 "3" 5, rowC8 "4" 5, rowC8 "5" 5,
   rowC8 "6" 5, rowC8 "7" 20, rowC8 "8" 30, rowC8 "9" 5]

def filtersC8 : List (String × MVal) := [("val", .obj [("$gt", .num 10)])]

/-- C9 / spec scenario S2 input and its expected PubMed translation. -/
def s2Input : String :=
  "(Pandemic[Ti] OR \"Covid-19\"[TiAb]) AND (Vaccine OR \"Public Health\"[Mesh])"

def s2Expected : String :=
  "(title:Pandemic OR (title:\"Covid-19\" OR abstract:\"Covid-19\")) AND (Vaccine OR mesh_terms:\"Public Health\")"

/-- C7 counterexample input: 60 distinct fused hits, `top_k = 60`,
re-ranking disabled. -/
def hits60 : List Hit := (List.range 60).map (fun i => mkFtsHit (toString i))

def reqC7 : SearchRequest :=
  { query := .str "q", strategies := [.lance_fts], fusion_enabled := false,
    rerank_enabled := false, distill_enabled := false, top_k := 60 }

def retrC7 : RetrieverType → Except Unit (List Hit) :=
  fun s => match s with
    | .lance_fts => .ok hits60
    | _ => .ok []

/-! ## C10 -/

/-- C10: there is a valid request with re-ranking enabled on which
`execute` terminates with an exception instead of a response: a rerank
candidate with `content = None` makes `MockReranker.rerank` evaluate
`len(None)`, which raises, and `execute` does not catch it. -/
theorem c10_rerank_null_content :
    (engineExecute reqC10 retrC10).result = .error () ∧
    hitNullContent.content = none ∧ reqC10.rerank_enabled = true := by
  refine ⟨rfl, rfl, rfl⟩

/-! ## C6 -/

/-- C6 (code bug): `execute` runs Scout on a request whose
`user_context` is set, yet the recorded `user_context` argument of the
`distill` call is `None` — `engine.py:163` passes only the query and the
hits, so a configured fetcher would receive `None`, not the request's
context.  The repository's own tests
(`test_identity_passed_to_scout`, `test_execute_passes_user_context`)
assert the request's context is passed. -/
theorem c6_user_context_not_passed :
    (engineExecute reqC6 retrC6).distillCtx = some none ∧
    reqC6.user_context = some "prop_user" ∧
    reqC6.distill_enabled = true := by
  refine ⟨rfl, rfl, rfl⟩

/-! ## C2 -/

/-- `distill` assigns only `distilled_text` on the copied hit: every
other field of the emitted hit equals the input's (in particular the
fetched text never lands in `original_text` or `content`, and a
`content` that entered non-null stays). -/
theorem distillOne_persistent_fields (sc : MockScout) (terms : List String)
    (ctx : Option UserCtx) (h : Hit) :
    (distillOne sc terms ctx h).original_text = h.original_text ∧
    (distillOne sc terms ctx h).content = h.content := by
  unfold distillOne
  refine ⟨?_, ?_⟩ <;> (dsimp only) <;> (repeat' split) <;> rfl

/-- C2 counterexample: a hit entering `distill` with
`original_text = None`, a configured fetcher resolving its
`source_pointer` (the fetched text shows up in `distilled_text`), but a
non-null `content` — the emitted hit keeps `content = "abc"`, not
`None` as the claim states. -/
theorem c2_ephemerality_counterexample :
    (mockScoutDistill scoutC2 (.str "fetched") [hitC2] none).map
        (fun h => (h.content, h.original_text, h.distilled_text)) =
      [(some "abc", none, "Fetched text.")] ∧
    hitC2.original_text = none ∧ hitC2.source_pointer.isSome = true := by
  refine ⟨rfl, rfl, rfl⟩

/-- C2 (amended): for every hit that enters `distill` with
`original_text` null, the emitted hit at the same position has
`original_text` null and `content` equal to the entering hit's
`content` (hence null whenever it entered null); fetched text can only
appear in `distilled_text`. -/
theorem c2_ephemerality_amended (sc : MockScout) (q : PyQuery)
    (hits : List Hit) (ctx : Option UserCtx) (i : Nat) (h h' : Hit)
    (hin : hits[i]? = some h)
    (hout : (mockScoutDistill sc q hits ctx)[i]? = some h')
    (hnull : h.original_text = none) :
    h'.original_text = none ∧ h'.content = h.content := by
  unfold mockScoutDistill at hout
  rw [List.getElem?_map, hin] at hout
  simp only [Option.map_some'] at hout
  have h2 := Option.some.inj hout
  subst h2
  have frame := distillOne_persistent_fields sc
    (pySplitWs (pyLower (extractQueryText q))) ctx h
  exact ⟨frame.1.trans hnull, frame.2⟩

def hitC2Out : Hit := { hitC2 with distilled_text := "Fetched text." }

/-- Witness for C2 at the concrete input. -/
theorem c2_ephemerality_witness :
    [hitC2][0]? = some hitC2 ∧
    (mockScoutDistill scoutC2 (.str "fetched") [hitC2] none)[0]? = some hitC2Out ∧
    hitC2.original_text = none ∧
    (hitC2Out.original_text = none ∧ hitC2Out.content = hitC2.content) :=
  ⟨rfl, rfl, rfl,
    c2_ephemerality_amended scoutC2 (.str "fetched") [hitC2] none 0 hitC2 hitC2Out
      rfl rfl rfl⟩

/-! ## C9 -/

/-- C9 (code bug): `parse_pubmed_query` does translate the S2 input to
the expected field-qualified expression, but the sparse retriever's
`_prepare_query` passes string queries through unchanged — the
translation is never applied to the query sparse retrieval uses
(`test_retrieve_pubmed_syntax` expects it to be). -/
theorem c9_pubmed_translation_bug :
    parsePubmedQuery s2Input = s2Expected ∧
    prepareQuery (.str s2Input) = s2Input ∧
    s2Input ≠ s2Expected := by
  refine ⟨by decide, rfl, by decide⟩

/-! ## C8 -/

/-- C8 (code bug): on the spec-S6 table with batch size 3 and filter
`val > 10`, the paginated retrieval described by the spec (and mocked
by the tests) issues the `(limit, offset)` page requests
`(3,0), (3,3), (3,6), (3,9)` and stops on the short page, while the
implemented `retrieve_systematic` issues the single request
`(1000000, 0)`; both yield the rows with `val` 15, 20, 30. -/
theorem c8_systematic_paging_bug :
    (retrieveSystematicCode tableC8 (some filtersC8)).requests = [(1000000, 0)] ∧
    (retrieveSystematicSpec tableC8 (some filtersC8) 3).requests =
      [(3, 0), (3, 3), (3, 6), (3, 9)] ∧
    (retrieveSystematicCode tableC8 (some filtersC8)).yielded.map (·.doc_id) =
      ["2", "7", "8"] ∧
    (retrieveSystematicSpec tableC8 (some filtersC8) 3).yielded.map (·.doc_id) =
      ["2", "7", "8"] := by
  refine ⟨rfl, by decide, by decide, by decide⟩

/-! ## C1, counterexample -/

/-- C1 counterexample: with query `q` and a single final hit `a`, the
hashed string is the f-string interpolation `q['a']` (Python list
repr), not the claim's plain concatenation `q[a]`; the two SHA-256
digests differ. -/
theorem c1_provenance_counterexample :
    respIds (engineExecute reqC1 retrC1) = some ["a"] ∧
    respProv (engineExecute reqC1 retrC1) =
      some (sha256hex ("q[" ++ sq "a" ++ "]")) ∧
    respProv (engineExecute reqC1 retrC1) ≠ some (sha256hex "q[a]") := by
  refine ⟨rfl, by decide, by decide⟩

/-! ## C7 -/

theorem insertDesc_length (x : Hit) (l : List Hit) :
    (insertDesc x l).length = l.length + 1 := by
  induction l with
  | nil => rfl
  | cons y ys ih => simp only [insertDesc]; split <;> simp [ih]

theorem sortDescStable_length (l : List Hit) :
    (sortDescStable l).length = l.length := by
  suffices h : ∀ acc : List Hit,
      (l.foldl (fun acc x => insertDesc x acc) acc).length = acc.length + l.length by
    simpa using h []
  induction l with
  | nil => intro acc; simp
  | cons x xs ih =>
    intro acc
    simp only [List.foldl_cons, ih, insertDesc_length, List.length_cons]
    omega

theorem mapM_ok_length {α β : Type} (f : α → Except Unit β) (l : List α) :
    ∀ res : List β, l.mapM f = Except.ok res → res.length = l.length := by
  induction l with
  | nil =>
    intro res h
    simp only [List.mapM_nil, pure, Except.pure] at h
    cases h
    rfl
  | cons a t ih =>
    intro res h
    rw [List.mapM_cons] at h
    cases hfa : f a with
    | error e => rw [hfa] at h; exact absurd h (by simp [Bind.bind, Except.bind])
    | ok b =>
      rw [hfa] at h
      cases hbs : t.mapM f with
      | error e => rw [hbs] at h; exact absurd h (by simp [Bind.bind, Except.bind])
      | ok bs =>
        rw [hbs] at h
        simp only [Bind.bind, Except.bind, pure, Except.pure] at h
        cases h
        simp [ih bs hbs]

theorem mockScoutDistill_length (sc : MockScout) (q : PyQuery) (hits : List Hit)
    (ctx : Option UserCtx) : (mockScoutDistill sc q hits ctx).length = hits.length :=
  List.length_map ..

set_option maxRecDepth 8000 in
/-- C7 counterexample: 60 fused hits, `top_k = 60`, re-ranking
disabled — the response has 60 hits, more than the 50 the claim allows. -/
theorem c7_rerank_window_counterexample :
    respHitsCount (engineExecute reqC7 retrC7) = some 60 ∧ reqC7.top_k = 60 ∧
    reqC7.rerank_enabled = false := by
  refine ⟨by decide, rfl, rfl⟩

/-- C7 (amended): the 50-hit window only feeds the reranker.  With
re-ranking disabled the results taken forward are the first `top_k` of
the whole fused list (so `min top_k fused` many — possibly more than
50); with re-ranking enabled the candidates are the first 50 fused
hits, so the response has at most `min top_k 50` hits. -/
theorem c7_rerank_window_amended (req : SearchRequest)
    (retrieve : RetrieverType → Except Unit (List Hit)) (cfg : ScoutConfig) :
    (req.rerank_enabled = false →
      respHitsCount (engineExecute req retrieve cfg) =
        some (min req.top_k (engineFusedHits req retrieve).length)) ∧
    (req.rerank_enabled = true →
      ∀ n, respHitsCount (engineExecute req retrieve cfg) = some n →
        n ≤ min req.top_k 50) := by
  constructor
  · intro hoff
    unfold engineExecute respHitsCount
    simp only [hoff, Bool.false_and]
    rw [if_neg Bool.false_ne_true]
    dsimp only
    split
    · rw [mockScoutDistill_length, List.length_take]
    · rw [List.length_take]
  · intro hon n hn
    unfold engineExecute respHitsCount at hn
    simp only [hon, Bool.true_and] at hn
    by_cases hc : ((engineFusedHits req retrieve).take 50).isEmpty
    · rw [if_neg (by simp [hc])] at hn
      have hfe : engineFusedHits req retrieve = [] := by
        rcases List.take_eq_nil_iff.mp (List.isEmpty_iff.mp hc) with h | h
        · exact absurd h (by decide)
        · exact h
      simp only [hfe, List.take_nil] at hn
      split at hn <;> simp_all [mockScoutDistill_length] <;> omega
    · rw [if_pos (by simp [hc])] at hn
      unfold mockRerank at hn
      rw [if_neg (by simp [hc])] at hn
      cases hm : ((engineFusedHits req retrieve).take 50).mapM
          (fun h => match h.content with
            | none => Except.error ()
            | some c => Except.ok { h with score := mkRat c.length 100 }) with
      | error e =>
        rw [hm] at hn
        exact absurd hn (by simp [Bind.bind, Except.bind])
      | ok scored =>
        rw [hm] at hn
        simp only [Bind.bind, Except.bind, pure, Except.pure] at hn
        have hlen := mapM_ok_length _ _ _ hm
        have hcand : scored.length ≤ 50 := by
          rw [hlen]; exact (List.length_take ..).le.trans (by simp)
        split at hn <;>
          simp only [mockScoutDistill_length, Option.some.injEq] at hn <;>
          (subst hn; simp only [List.length_take, sortDescStable_length]; omega)

/-- Witness for C7 at a concrete input (one hit, `top_k = 5`). -/
theorem c7_rerank_window_witness :
    reqC1.rerank_enabled = false ∧
    respHitsCount (engineExecute reqC1 retrC1) =
      some (min reqC1.top_k (engineFusedHits reqC1 retrC1).length) :=
  ⟨rfl, (c7_rerank_window_amended reqC1 retrC1 {}).1 rfl⟩

/-! ## C3 and C4: systematic stream bracketing -/

/-- Shared characterization: whenever the `START` audit was emitted,
the events are exactly `[START, COMPLETE c]` with `c` following the
count-after-yield rule. -/
theorem sysEvents_char (i : SysInput) (budget : Option Nat)
    (h : startEmitted (engineExecuteSystematic i budget) = true) :
    completeTotals (engineExecuteSystematic i budget) =
      [if earlyClose i budget = true
       then (engineExecuteSystematic i budget).delivered.length - 1
       else (engineExecuteSystematic i budget).delivered.length] := by
  cases budget with
  | none =>
    by_cases ha : i.auditStartRaises
    · simp [engineExecuteSystematic, startEmitted, ha] at h
    · simp only [engineExecuteSystematic, ha, if_false, Bool.false_eq_true]
      simp [completeTotals, earlyClose]
  | some k =>
    match k with
    | 0 => simp [engineExecuteSystematic, startEmitted] at h
    | k + 1 =>
      by_cases ha : i.auditStartRaises
      · simp [engineExecuteSystematic, startEmitted, ha] at h
      · by_cases hk : k + 1 ≤ (fullStream i).length
        · simp only [engineExecuteSystematic, ha, if_false, Bool.false_eq_true,
            if_pos hk]
          simp only [completeTotals, earlyClose, List.filterMap]
          have hlen : ((fullStream i).take (k + 1)).length = k + 1 := by
            simp [List.length_take]; omega
          simp [hlen, hk]
        · simp only [engineExecuteSystematic, ha, if_false, Bool.false_eq_true,
            if_neg hk]
          simp only [completeTotals, earlyClose]
          have : ¬ (decide (1 ≤ k + 1) && decide (k + 1 ≤ (fullStream i).length)) = true := by
            simp; omega
          simp [this, hk]

/-- C3: in every `ExecuteSystematic` run in which the `START` audit
emission succeeded, exactly one `SYSTEMATIC_SEARCH_COMPLETE` event is
emitted — on normal completion, early termination, or mid-stream error
— and its `total_found` is the number of delivered items, except that a
consumer closing between a yield and the post-yield `count += 1` sees
one less than the items it received. -/
theorem c3_stream_bracketing (i : SysInput) (budget : Option Nat)
    (h : startEmitted (engineExecuteSystematic i budget) = true) :
    completeTotals (engineExecuteSystematic i budget) =
      [if earlyClose i budget = true
       then (engineExecuteSystematic i budget).delivered.length - 1
       else (engineExecuteSystematic i budget).delivered.length] :=
  sysEvents_char i budget h

def i3 : SysInput :=
  { request := { query := .str "q", strategies := [.lance_fts] },
    sparseItems := [mkFtsHit "a", mkFtsHit "b", mkFtsHit "c"],
    sparseRaises := false, denseHits := .ok [], tableVersion := .ok 7,
    auditStartRaises := false }

/-- Witness for C3: a consumer that closes after receiving 2 of 3 items
sees `COMPLETE.total_found = 1`. -/
theorem c3_stream_bracketing_witness :
    startEmitted (engineExecuteSystematic i3 (some 2)) = true ∧
    completeTotals (engineExecuteSystematic i3 (some 2)) =
      [if earlyClose i3 (some 2) = true
       then (engineExecuteSystematic i3 (some 2)).delivered.length - 1
       else (engineExecuteSystematic i3 (some 2)).delivered.length] :=
  ⟨by decide, c3_stream_bracketing i3 (some 2) (by decide)⟩

def i4 : SysInput :=
  { request := { query := .str "q", strategies := [.lance_fts] },
    sparseItems := [mkFtsHit "a"], sparseRaises := true,
    denseHits := .ok [], tableVersion := .ok 7, auditStartRaises := false }

/-- C4 counterexample: a backend error raised while iterating the
sparse systematic stream (after one delivered item) does **not**
propagate to the consumer — the engine logs it and breaks
(engine.py:231-233), the stream ends normally and `COMPLETE` reports
the one delivered item. -/
theorem c4_stream_error_counterexample :
    i4.sparseRaises = true ∧
    (engineExecuteSystematic i4 none).raised = false ∧
    completeTotals (engineExecuteSystematic i4 none) = [1] := by
  refine ⟨rfl, by decide, by decide⟩

/-- C4 (amended): a backend error raised while iterating the sparse
systematic stream is isolated after all: it is caught and logged, the
sparse iteration stops with the items already yielded standing, no
exception reaches the consumer, and the `COMPLETE` audit still fires
with the count-after-yield rule. -/
theorem c4_stream_error_amended (i : SysInput) (budget : Option Nat)
    (hstrat : i.request.strategies = [.lance_fts])
    (hraise : i.sparseRaises = true)
    (hstart : startEmitted (engineExecuteSystematic i budget) = true) :
    (engineExecuteSystematic i budget).raised = false ∧
    completeTotals (engineExecuteSystematic i budget) =
      [if earlyClose i budget = true
       then (engineExecuteSystematic i budget).delivered.length - 1
       else (engineExecuteSystematic i budget).delivered.length] := by
  have hsr : streamRaises i = false := by
    simp [streamRaises, stratSegs, hstrat]
  refine ⟨?_, sysEvents_char i budget hstart⟩
  cases budget with
  | none =>
    by_cases ha : i.auditStartRaises
    · simp [engineExecuteSystematic, startEmitted, ha] at hstart
    · simp [engineExecuteSystematic, ha, hsr]
  | some k =>
    match k with
    | 0 => simp [engineExecuteSystematic, startEmitted] at hstart
    | k + 1 =>
      by_cases ha : i.auditStartRaises
      · simp [engineExecuteSystematic, startEmitted, ha] at hstart
      · by_cases hk : k + 1 ≤ (fullStream i).length
        · simp [engineExecuteSystematic, ha, hk]
        · simp [engineExecuteSystematic, ha, hk, hsr]

/-- Witness for C4 at the concrete erroring input. -/
theorem c4_stream_error_witness :
    i4.request.strategies = [.lance_fts] ∧ i4.sparseRaises = true ∧
    startEmitted (engineExecuteSystematic i4 none) = true ∧
    (engineExecuteSystematic i4 none).raised = false :=
  ⟨rfl, rfl, by decide,
    (c4_stream_error_amended i4 none rfl rfl (by decide)).1⟩

/-! ## C1, amended theorem -/

theorem flatten_singletons (l : List Char) : (l.map (fun c => [c])).flatten = l := by
  induction l <;> simp [*]

theorem pyEscapeChar_plain (c : Char) (h1 : 32 ≤ c.toNat) (h2 : c.toNat ≤ 126)
    (h3 : c ≠ squote) (h4 : c ≠ bslash) : pyEscapeChar squote c = [c] := by
  have hnl : c ≠ nlChar := by
    intro hc; rw [hc] at h1; exact absurd h1 (by decide)
  have hcr : c ≠ crChar := by
    intro hc; rw [hc] at h1; exact absurd h1 (by decide)
  have htab : c ≠ tabChar := by
    intro hc; rw [hc] at h1; exact absurd h1 (by decide)
  unfold pyEscapeChar
  rw [if_neg (by simpa using h4), if_neg (by simpa using h3),
    if_neg (by simpa using hnl), if_neg (by simpa using hcr),
    if_neg (by simpa using htab), if_pos (by simp [h1, h2])]

theorem pyStrRepr_plain (d : String) (h : plainId d = true) : pyStrRepr d = sq d := by
  have hall := List.all_eq_true.mp h
  have hnosq : d.data.contains squote = false := by
    by_contra hc
    rw [Bool.not_eq_false] at hc
    have hmem : squote ∈ d.data := by simpa using hc
    exact absurd (hall squote hmem) (by decide)
  unfold pyStrRepr
  rw [hnosq, Bool.false_and, if_neg Bool.false_ne_true]
  dsimp only
  have hmap : d.data.map (pyEscapeChar squote) = d.data.map (fun c => [c]) := by
    refine List.map_congr_left ?_
    intro c hc
    have hp := hall c hc
    simp only [Bool.and_eq_true, decide_eq_true_eq] at hp
    exact pyEscapeChar_plain c hp.1.1.1.1 hp.1.1.1.2 hp.1.1.2 hp.2
  rw [hmap, flatten_singletons]
  rfl

theorem pyListRepr_plain (ids : List String)
    (h : ∀ d ∈ ids, plainId d = true) :
    pyListRepr ids = "[" ++ String.intercalate ", " (ids.map sq) ++ "]" := by
  unfold pyListRepr
  have : ids.map pyStrRepr = ids.map sq :=
    List.map_congr_left (fun d hd => pyStrRepr_plain d (h d hd))
  rw [this]

/-- C1 (amended): the provenance hash is the SHA-256 hex digest of the
query text followed by the Python repr of the final ordered doc_id
list — `[`, the ids each wrapped in single quotes and joined by `, `,
then `]` (stated for ids of printable ASCII without quotes or
backslashes, where Python repr is exactly single-quoting). -/
theorem c1_provenance_amended (req : SearchRequest)
    (retrieve : RetrieverType → Except Unit (List Hit)) (cfg : ScoutConfig)
    (r : SearchResponse)
    (hok : (engineExecute req retrieve cfg).result = .ok r)
    (hplain : ∀ d ∈ r.hits.map (·.doc_id), plainId d = true) :
    r.provenance_hash =
      sha256hex (pyQueryFStr req.query ++
        ("[" ++ String.intercalate ", " ((r.hits.map (·.doc_id)).map sq) ++ "]")) := by
  unfold engineExecute at hok
  rw [← pyListRepr_plain _ hplain]
  revert hok
  dsimp only
  split
  · intro hok; exact absurd hok (by simp)
  · intro hok
    have := Except.ok.inj hok
    subst this
    rfl

def respA : SearchResponse :=
  { hits := [mkFtsHit "a"], total_found := 1,
    provenance_hash := sha256hex ("q" ++ pyListRepr ["a"]) }

/-- Witness for C1 at the concrete single-hit input. -/
theorem c1_provenance_witness :
    (engineExecute reqC1 retrC1).result = .ok respA ∧
    (∀ d ∈ respA.hits.map (·.doc_id), plainId d = true) ∧
    respA.provenance_hash =
      sha256hex (pyQueryFStr reqC1.query ++
        ("[" ++ String.intercalate ", " ((respA.hits.map (·.doc_id)).map sq) ++ "]")) :=
  ⟨rfl, by decide, c1_provenance_amended reqC1 retrC1 {} respA rfl (by decide)⟩

/-! ## C5: reciprocal rank fusion

The double fold of `fuse` is reduced to a single fold over the
flattened list of `(contribution, hit)` items, which is then
characterized against the claim's per-id sums. -/

def flatContrib (k : Nat) (results : List (List Hit)) : List (ℚ × Hit) :=
  (results.map (fun l => l.enum.map (fun p => (rrfContrib k p.1, p.2)))).flatten

def accumFlat (xs : List (ℚ × Hit)) : List (String × ℚ × Hit) :=
  xs.foldl (fun acc x => rrfUpdate acc x.2.doc_id x.1 x.2) []

def sumContrib (xs : List (ℚ × Hit)) (d : String) : ℚ :=
  ((xs.filter (fun x => x.2.doc_id = d)).map (·.1)).sum

def specAcc (xs : List (ℚ × Hit)) : List (String × ℚ × Hit) :=
  (firstOccHits (xs.map (·.2))).map (fun h => (h.doc_id, sumContrib xs h.doc_id, h))

theorem fuseAccum_eq_accumFlat (k : Nat) (results : List (List Hit)) :
    fuseAccum k results = accumFlat (flatContrib k results) := by
  unfold fuseAccum accumFlat flatContrib
  rw [List.foldl_flatten, List.foldl_map]
  congr 1
  funext acc hl
  rw [List.foldl_map]

theorem firstOccHits_append_singleton (l : List Hit) (h : Hit) :
    firstOccHits (l ++ [h]) =
      if (firstOccHits l).any (fun g => g.doc_id = h.doc_id) then firstOccHits l
      else firstOccHits l ++ [h] := by
  unfold firstOccHits
  rw [List.foldl_append, List.foldl_cons, List.foldl_nil]

theorem firstOccHits_any_id (l : List Hit) (d : String) :
    (firstOccHits l).any (fun g => g.doc_id = d) = l.any (fun g => g.doc_id = d) := by
  induction l using List.reverseRecOn with
  | nil => rfl
  | append_singleton l h ih =>
    rw [firstOccHits_append_singleton, List.any_append]
    by_cases hc : (firstOccHits l).any (fun g => g.doc_id = h.doc_id) = true
    · rw [if_pos hc]
      by_cases hd : h.doc_id = d
      · subst hd
        rw [ih] at hc
        simp [ih, hc]
      · simp [ih, hd]
    · rw [if_neg hc, List.any_append, ih]

theorem firstOccHits_nodup (l : List Hit) :
    ((firstOccHits l).map (fun h => h.doc_id)).Nodup := by
  induction l using List.reverseRecOn with
  | nil => simp [firstOccHits]
  | append_singleton l h ih =>
    rw [firstOccHits_append_singleton]
    by_cases hc : (firstOccHits l).any (fun g => g.doc_id = h.doc_id) = true
    · rw [if_pos hc]; exact ih
    · rw [if_neg hc, List.map_append]
      refine List.Nodup.append ih (List.nodup_singleton _) ?_
      intro a ha hb
      simp only [List.map_cons, List.map_nil, List.mem_singleton] at hb
      subst hb
      rcases List.mem_map.mp ha with ⟨g, hg, hgid⟩
      exact hc (List.any_eq_true.mpr ⟨g, hg, by simp [hgid]⟩)

theorem sumContrib_append_singleton (xs : List (ℚ × Hit)) (x : ℚ × Hit) (d : String) :
    sumContrib (xs ++ [x]) d =
      if x.2.doc_id = d then sumContrib xs d + x.1 else sumContrib xs d := by
  unfold sumContrib
  rw [List.filter_append]
  by_cases hd : x.2.doc_id = d
  · simp [List.filter_cons, hd]
  · simp [List.filter_cons, hd]

theorem sumContrib_zero_of_absent (xs : List (ℚ × Hit)) (d : String)
    (h : xs.any (fun x => x.2.doc_id = d) = false) : sumContrib xs d = 0 := by
  unfold sumContrib
  have : xs.filter (fun x => x.2.doc_id = d) = [] :=
    List.filter_eq_nil_iff.mpr (List.any_eq_false.mp h)
  rw [this]
  rfl

theorem rrfUpdate_absent (lst : List (String × ℚ × Hit)) (d : String) (c : ℚ) (hx : Hit)
    (h : ∀ e ∈ lst, e.1 ≠ d) :
    rrfUpdate lst d c hx = lst ++ [(d, c, hx)] := by
  induction lst with
  | nil => rfl
  | cons e rest ih =>
    simp only [rrfUpdate]
    rw [if_neg (h e (List.mem_cons_self e rest)),
      ih (fun e' he' => h e' (List.mem_cons_of_mem _ he'))]
    rfl

theorem rrfUpdate_present (hs : List Hit) (σ : String → ℚ) (d : String) (c : ℚ) (hx : Hit)
    (hnd : (hs.map (fun h => h.doc_id)).Nodup)
    (hin : hs.any (fun g => g.doc_id = d) = true) :
    rrfUpdate (hs.map (fun h => (h.doc_id, σ h.doc_id, h))) d c hx =
      hs.map (fun h =>
        (h.doc_id, if h.doc_id = d then σ h.doc_id + c else σ h.doc_id, h)) := by
  induction hs with
  | nil => simp at hin
  | cons h1 rest ih =>
    simp only [List.map_cons, rrfUpdate]
    rw [List.map_cons] at hnd
    have hnd1 := List.nodup_cons.mp hnd
    by_cases hd : h1.doc_id = d
    · rw [if_pos hd, if_pos hd, ratAdd_eq_add]
      congr 1
      refine (List.map_congr_left ?_)
      intro g hg
      have : g.doc_id ≠ d := by
        intro hgd
        exact hnd1.1 (hd ▸ hgd ▸ List.mem_map_of_mem (fun h => h.doc_id) hg)
      rw [if_neg this]
    · rw [if_neg hd, if_neg hd]
      have hrest : rest.any (fun g => g.doc_id = d) = true := by
        rcases List.any_eq_true.mp hin with ⟨g, hg, hgd⟩
        rcases List.mem_cons.mp hg with rfl | hg2
        · exact absurd (of_decide_eq_true hgd) hd
        · exact List.any_eq_true.mpr ⟨g, hg2, hgd⟩
      rw [ih hnd1.2 hrest]

theorem any_map_general {α β : Type} (f : α → β) (l : List α) (p : β → Bool) :
    (l.map f).any p = l.any (fun a => p (f a)) := by
  induction l <;> simp [*]

theorem accumFlat_eq_specAcc (xs : List (ℚ × Hit)) : accumFlat xs = specAcc xs := by
  induction xs using List.reverseRecOn with
  | nil => rfl
  | append_singleton xs x ih =>
    have step : accumFlat (xs ++ [x]) =
        rrfUpdate (accumFlat xs) x.2.doc_id x.1 x.2 := by
      unfold accumFlat
      rw [List.foldl_append, List.foldl_cons, List.foldl_nil]
    rw [step, ih]
    unfold specAcc
    rw [List.map_append]
    simp only [List.map_cons, List.map_nil]
    rw [firstOccHits_append_singleton]
    by_cases hc : (firstOccHits (xs.map (fun x => x.2))).any
        (fun g => g.doc_id = x.2.doc_id) = true
    · rw [if_pos hc]
      rw [rrfUpdate_present (firstOccHits (xs.map (fun x => x.2)))
        (fun d => sumContrib xs d) x.2.doc_id x.1 x.2 (firstOccHits_nodup _) hc]
      refine List.map_congr_left ?_
      intro h hF
      rw [sumContrib_append_singleton]
      by_cases hd : h.doc_id = x.2.doc_id
      · rw [if_pos hd, if_pos hd.symm]
      · rw [if_neg hd, if_neg (fun hh => hd hh.symm)]
    · rw [if_neg hc]
      rw [rrfUpdate_absent _ _ _ _ (by
        intro e he
        rcases List.mem_map.mp he with ⟨g, hg, rfl⟩
        intro hgd
        exact (Bool.eq_false_iff.mp (Bool.not_eq_true _ ▸ hc))
          (List.any_eq_true.mpr ⟨g, hg, by simpa using hgd⟩))]
      rw [List.map_append]
      congr 1
      · refine List.map_congr_left ?_
        intro h hF
        rw [sumContrib_append_singleton]
        have hne : x.2.doc_id ≠ h.doc_id := by
          intro he
          refine (Bool.eq_false_iff.mp (Bool.not_eq_true _ ▸ hc))
            (List.any_eq_true.mpr ⟨h, hF, by simp [he.symm]⟩)
        rw [if_neg hne]
      · have habs : xs.any (fun q => q.2.doc_id = x.2.doc_id) = false := by
          have h1 := firstOccHits_any_id (xs.map (fun x => x.2)) x.2.doc_id
          rw [Bool.not_eq_true] at hc
          rw [hc] at h1
          rw [any_map_general] at h1
          exact h1.symm
        simp only [List.map_cons, List.map_nil]
        rw [sumContrib_append_singleton, if_pos rfl,
          sumContrib_zero_of_absent xs x.2.doc_id habs, zero_add]

theorem sum_map_filter {α : Type} (p : α → Bool) (m : α → ℚ) (l : List α) :
    ((l.filter p).map m).sum = (l.map (fun x => if p x then m x else 0)).sum := by
  induction l with
  | nil => rfl
  | cons x xs ih =>
    by_cases hp : p x <;> simp [List.filter_cons, hp, ih]

theorem sumContrib_flatContrib (k : Nat) (results : List (List Hit)) (d : String) :
    sumContrib (flatContrib k results) d = rrfSpecScore k results d := by
  unfold sumContrib flatContrib rrfSpecScore
  rw [sum_map_filter, List.map_flatten, List.sum_flatten, List.map_map, List.map_map]
  congr 1
  refine List.map_congr_left ?_
  intro l _
  dsimp only [Function.comp]
  rw [List.map_map, sum_map_filter]
  rfl

/-- C5, general part: `FusionEngine.fuse` coincides with the
specification-side RRF (per-id sums of `1/(k+r+1)`, first-occurrence
canonical hit, stable descending sort). -/
theorem fusionFuse_eq_fuseSpec (k : Nat) (results : List (List Hit)) :
    fusionFuse k results = fuseSpec k results := by
  unfold fusionFuse fuseSpec
  by_cases he : results.isEmpty
  · rw [if_pos he, if_pos he]
  · rw [if_neg he, if_neg he]
    rw [fuseAccum_eq_accumFlat, accumFlat_eq_specAcc]
    unfold specAcc
    have hids : (flatContrib k results).map (fun x => x.2) = results.flatten := by
      unfold flatContrib
      rw [List.map_flatten, List.map_map]
      have h2 : ∀ l : List Hit,
          ((l.enum.map (fun p => (rrfContrib k p.1, p.2))).map (fun x => x.2)) = l := by
        intro l
        rw [List.map_map]
        exact List.enum_map_snd l
      calc ((results.map (fun l =>
              (l.enum.map (fun p => (rrfContrib k p.1, p.2))).map (fun x => x.2))).flatten)
          = (results.map (fun l => l)).flatten := by
            rw [List.map_congr_left (fun l _ => h2 l)]
        _ = results.flatten := by rw [List.map_id']
    rw [List.map_map, hids]
    congr 1
    refine List.map_congr_left ?_
    intro h _
    show ({ h with score := sumContrib (flatContrib k results) h.doc_id } : Hit) = _
    rw [sumContrib_flatContrib]

def listS1A : List Hit := [mkFtsHit "1", mkFtsHit "2", mkFtsHit "3"]

def listS1B : List Hit := [mkFtsHit "3", mkFtsHit "2", mkFtsHit "4"]

/-- C5: `fuse` gives each `doc_id` the sum over inputs of `1/(k+r+1)`
at its 0-based rank `r`, retains the first-occurrence hit per id with
the accumulated score, and sorts by score descending with ties in
first-occurrence order (equality with the spec-side RRF); on inputs
`[1,2,3]` and `[3,2,4]` with `k = 1` the output is `3, 2, 1, 4` with
scores `3/4, 2/3, 1/2, 1/4`. -/
theorem c5_rrf_fusion :
    (∀ (k : Nat) (results : List (List Hit)),
      fusionFuse k results = fuseSpec k results) ∧
    (fusionFuse 1 [listS1A, listS1B]).map (fun h => (h.doc_id, h.score)) =
      [("3", mkRat 3 4), ("2", mkRat 2 3), ("1", mkRat 1 2), ("4", mkRat 1 4)] := by
  refine ⟨fusionFuse_eq_fuseSpec, by decide⟩

end CoreasonSearch
